import Mathlib

/-!
Verification of the track version-code reconciliation in
`src/GooglePlay.ts` (function `updateTrack`, lines 219-284) and the
explicit version-code list parser (`getVersionCodeListInput`, lines
387-407), as a shallow embedding in Lean.

Version codes are JavaScript numbers holding integers; we model them as
`Int`.  The regular expression the `expression` filter denotes is
modelled by a small regex AST with Brzozowski-derivative matching; a
`VCFilter.pattern` value carries that AST, corresponding to the regex
the filter string denotes once compiled by `new RegExp`.
-/

namespace GPlay

/-! ## Regular expressions (models JavaScript `RegExp` on the patterns used) -/

/-- Regex AST: empty language, empty string, a single character, the `.`
wildcard, concatenation, alternation, Kleene star. -/
inductive Regex where
  | fail
  | eps
  | chr (c : Char)
  | dot
  | seq (a b : Regex)
  | alt (a b : Regex)
  | star (a : Regex)
deriving DecidableEq, Repr

/-- Whether the regex accepts the empty string. -/
def nullable : Regex → Bool
  | .fail => false
  | .eps => true
  | .chr _ => false
  | .dot => false
  | .seq a b => nullable a && nullable b
  | .alt a b => nullable a || nullable b
  | .star _ => true

/-- Brzozowski derivative of a regex with respect to one character. -/
def deriv : Regex → Char → Regex
  | .fail, _ => .fail
  | .eps, _ => .fail
  | .chr c, x => if x = c then .eps else .fail
  | .dot, _ => .eps
  | .seq a b, x =>
      if nullable a then .alt (.seq (deriv a x) b) (deriv b x)
      else .seq (deriv a x) b
  | .alt a b, x => .alt (deriv a x) (deriv b x)
  | .star a, x => .seq (deriv a x) (.star a)

/-- Whether the regex accepts exactly the whole character list. -/
def rmatch (r : Regex) (cs : List Char) : Bool := nullable (cs.foldl deriv r)

/-- The top-level alternants of a pattern: the alternation spine of the
AST, which corresponds to the occurrences of `|` at the top level of the
pattern string (an `alt` nested under `seq` or `star` corresponds to a
parenthesized group and is not split). -/
def topAlts : Regex → List Regex
  | .alt a b => topAlts a ++ topAlts b
  | r => [r]

/-- Whether the pattern has a top-level alternation. -/
def hasTopAlt : Regex → Bool
  | .alt _ _ => true
  | _ => false

/-- Whether the regex matches some prefix of the character list. -/
def prefixesMatch (r : Regex) (cs : List Char) : Bool :=
  (List.range (cs.length + 1)).any (fun k => rmatch r (cs.take k))

/-- Whether the regex matches some suffix of the character list. -/
def suffixesMatch (r : Regex) (cs : List Char) : Bool :=
  (List.range (cs.length + 1)).any (fun k => rmatch r (cs.drop k))

/-- Whether the regex matches some contiguous part of the character
list. -/
def anywhereMatch (r : Regex) (cs : List Char) : Bool :=
  (List.range (cs.length + 1)).any (fun k => prefixesMatch r (cs.drop k))

/-- Models `s.match(new RegExp('^' + p + '$')) !== null` from
GooglePlay.ts lines 249-252. JavaScript `|` binds loosest, so for a
pattern with top-level alternants `b₁|…|bₙ` the anchored source reads
`(^b₁)|b₂|…|(bₙ$)`: the first alternant must match a prefix of the
string, a middle alternant may match anywhere, and the last must match
a suffix. A pattern without a top-level alternation is anchored at both
ends, so the test is a full match of the pattern. -/
def jsAnchoredTest (p : Regex) (s : String) : Bool :=
  match topAlts p with
  | [] => false
  | [b] => rmatch b s.data
  | b :: rest =>
      prefixesMatch b s.data
        || rest.dropLast.any (fun m => anywhereMatch m s.data)
        || (match rest.getLast? with
            | some bLast => suffixesMatch bLast s.data
            | none => false)

/-- The regex denoted by a pattern string consisting of plain
characters only (such as the pattern `"123"`). -/
def regexOfLiteral (s : String) : Regex :=
  s.data.foldr (fun c r => Regex.seq (.chr c) r) .eps

/-! ## The data reaching `updateTrack` -/

/-- The run-time value of the `versionCodeFilter` variable
(GooglePlay.ts lines 51-56): `null`, a regex pattern (`typeof === 'string'`
in the source; here the regex that string denotes), or a number list. -/
inductive VCFilter where
  | null
  | pattern (p : Regex)
  | list (l : List Int)

/-- A release on a track: its version-code list (GooglePlay.ts line 244
reads `versionCodes` of `releases[0]`). -/
structure Release where
  versionCodes : List Int

/-- The track object `googleutil.getTrack` resolves with: its list of
releases. -/
structure Track where
  releases : List Release

/-- How the merge step of `updateTrack` can fail: the caught
`getTrack` failure rethrown as `CannotDownloadTrack` (lines 237-242), or
a JavaScript `TypeError` (reading `versionCodes` of `releases[0]` when
there is no release, line 244, or calling `indexOf` on a `null`
filter, line 261). -/
inductive MergeError where
  | cannotDownloadTrack
  | typeError
deriving DecidableEq, Repr

/-! ## The reconciliation itself -/

/-- GooglePlay.ts lines 268-272: append each uploaded code to the
accumulated list unless `indexOf` already finds it. -/
def pushNewCodes (acc : List Int) : List Int → List Int
  | [] => acc
  | c :: rest =>
      if c ∈ acc then pushNewCodes acc rest
      else pushNewCodes (acc ++ [c]) rest

/-- GooglePlay.ts lines 247-265: the old codes that survive the filter.
A `pattern` filter keeps a code unless its decimal string fully matches
the anchored regex (lines 251-255); a `list` filter keeps a code unless
`indexOf` finds it in the removal list (lines 260-264); a `null` filter
reaches `null.indexOf` and throws as soon as the loop body runs, so it
only succeeds (vacuously) on an empty old list. -/
def survivorCodes (f : VCFilter) (old : List Int) : Except MergeError (List Int) :=
  match f with
  | .pattern p => .ok (old.filter (fun c => !jsAnchoredTest p (toString c)))
  | .list l => .ok (old.filter (fun c => !decide (c ∈ l)))
  | .null => if old.isEmpty then .ok [] else .error .typeError

/-- GooglePlay.ts lines 230-273, the merge portion of `updateTrack`:
with filter type `'all'` the new track codes are exactly
`apkVersionCodes`; otherwise the track is fetched (`fetched` is the
outcome `googleutil.getTrack` would produce, `.error` rethrown as
`CannotDownloadTrack`), `releases[0].versionCodes` is read (a missing
first release throws a `TypeError`), the filter is applied, and the
uploaded codes are appended without duplication. -/
def mergeTrackVersionCodes (versionCodeListType : Option String) (f : VCFilter)
    (fetched : Except Unit Track) (apkVersionCodes : List Int) :
    Except MergeError (List Int) :=
  if versionCodeListType = some "all" then .ok apkVersionCodes
  else
    match fetched with
    | .error _ => .error .cannotDownloadTrack
    | .ok res =>
        match res.releases.head? with
        | none => .error .typeError
        | some rel =>
            (survivorCodes f rel.versionCodes).map
              (fun surv => pushNewCodes surv apkVersionCodes)

/-- The merge applied to a successfully fetched track whose first
release carries `old`: the pure reconciliation
`(filterType, filter, oldVersionCodes, newVersionCodes) ↦ merged`. -/
def reconcile (ty : Option String) (f : VCFilter) (old new : List Int) :
    Except MergeError (List Int) :=
  mergeTrackVersionCodes ty f (.ok ⟨[⟨old⟩]⟩) new

/-- Modelled from the spec: the task input layer (the repository's
`task.json`, which is not under `src/`) supplies `'all'` as the default
value of the `versionCodeFilterType` input, so an absent filter-type
input reaches the code as `'all'` ("Absence of an explicit filter type
defaults to `All`"). -/
def effectiveVersionCodeFilterType (raw : Option String) : String :=
  raw.getD "all"

/-! ## The explicit version-code list parser -/

/-- Models JavaScript `String.prototype.trim`: drop whitespace from
both ends (structurally, on the character list). -/
def jsTrim (s : String) : String :=
  ⟨((s.data.dropWhile Char.isWhitespace).reverse.dropWhile Char.isWhitespace).reverse⟩

/-- Models JavaScript `parseInt(s, 10)` on an already-trimmed string:
an optional sign followed by the longest leading digit run; `none`
models `NaN` (no digits at all). Trailing non-digit characters are
ignored, so `parseInt("12.5", 10)` is `12`. -/
def jsParseInt10 (s : String) : Option Int :=
  match s.data with
  | '-' :: rest =>
      let ds := rest.takeWhile (fun c => c.isDigit)
      if ds.isEmpty then none
      else some (-(ds.foldl (fun n c => 10 * n + (c.toNat - 48)) 0 : Nat))
  | '+' :: rest =>
      let ds := rest.takeWhile (fun c => c.isDigit)
      if ds.isEmpty then none
      else some ((ds.foldl (fun n c => 10 * n + (c.toNat - 48)) 0 : Nat))
  | cs =>
      let ds := cs.takeWhile (fun c => c.isDigit)
      if ds.isEmpty then none
      else some ((ds.foldl (fun n c => 10 * n + (c.toNat - 48)) 0 : Nat))

/-- GooglePlay.ts lines 392-400, one loop iteration: parse the trimmed
token; a truthy, positive result is kept, anything else (including
`NaN` and `0`, which are falsy) is recorded as incorrect. -/
def vcStep (acc : List Int × List String) (versionCode : String) :
    List Int × List String :=
  match jsParseInt10 (jsTrim versionCode) with
  | some n =>
      if 0 < n then (acc.1 ++ [n], acc.2) else (acc.1, acc.2 ++ [jsTrim versionCode])
  | none => (acc.1, acc.2 ++ [jsTrim versionCode])

/-- The acceptance test of one token, as the code applies it: `parseInt`
of the trimmed token is truthy and strictly positive. -/
def vcGood (versionCode : String) : Bool :=
  match jsParseInt10 (jsTrim versionCode) with
  | some n => decide (0 < n)
  | none => false

/-- GooglePlay.ts lines 387-407, `getVersionCodeListInput` given the
comma-delimited tokens of the `replaceList` input: accumulate parsed
codes and incorrect tokens; throw (here `.error`) when any token was
incorrect, else return the parsed codes. -/
def getVersionCodeListInput (replaceList : List String) :
    Except (List String) (List Int) :=
  let r := replaceList.foldl vcStep ([], [])
  if r.2.isEmpty then Except.ok r.1 else Except.error r.2

/-- Follows the claim's words, for comparison with the code: a token is
a positive-integer value when its trimmed text is entirely an optional
sign followed by digits and the denoted integer is positive (so `"12.5"`
is a non-integer value and `"0"` a non-positive one). -/
def isPositiveIntegerToken (s : String) : Bool :=
  let t := jsTrim s
  match t.data with
  | '+' :: rest => !rest.isEmpty && rest.all (fun c => c.isDigit)
      && decide (0 < rest.foldl (fun n c => 10 * n + (c.toNat - 48)) 0)
  | '-' :: _ => false
  | cs => !cs.isEmpty && cs.all (fun c => c.isDigit)
      && decide (0 < cs.foldl (fun n c => 10 * n + (c.toNat - 48)) 0)

/-! ## Helper lemmas -/

theorem mem_pushNewCodes_left : ∀ (new acc : List Int) (x : Int),
    x ∈ acc → x ∈ pushNewCodes acc new := by
  intro new
  induction new with
  | nil => intro acc x hx; simpa [pushNewCodes] using hx
  | cons c rest ih =>
    intro acc x hx
    simp only [pushNewCodes]
    split
    · exact ih acc x hx
    · exact ih (acc ++ [c]) x (List.mem_append_left _ hx)

theorem mem_pushNewCodes_right : ∀ (new acc : List Int) (x : Int),
    x ∈ new → x ∈ pushNewCodes acc new := by
  intro new
  induction new with
  | nil => intro acc x hx; simp at hx
  | cons c rest ih =>
    intro acc x hx
    simp only [pushNewCodes]
    rcases List.mem_cons.mp hx with rfl | hx
    · split
      · exact mem_pushNewCodes_left rest acc x (by assumption)
      · exact mem_pushNewCodes_left rest (acc ++ [x]) x (by simp)
    · split
      · exact ih acc x hx
      · exact ih (acc ++ [c]) x hx

theorem mem_of_mem_pushNewCodes : ∀ (new acc : List Int) (x : Int),
    x ∈ pushNewCodes acc new → x ∈ acc ∨ x ∈ new := by
  intro new
  induction new with
  | nil => intro acc x hx; exact Or.inl (by simpa [pushNewCodes] using hx)
  | cons c rest ih =>
    intro acc x hx
    simp only [pushNewCodes] at hx
    split at hx
    · rcases ih acc x hx with h | h
      · exact Or.inl h
      · exact Or.inr (List.mem_cons_of_mem _ h)
    · rcases ih (acc ++ [c]) x hx with h | h
      · rcases List.mem_append.mp h with h | h
        · exact Or.inl h
        · exact Or.inr (by simp at h; simp [h])
      · exact Or.inr (List.mem_cons_of_mem _ h)

theorem nodup_pushNewCodes : ∀ (new acc : List Int),
    acc.Nodup → (pushNewCodes acc new).Nodup := by
  intro new
  induction new with
  | nil => intro acc h; simpa [pushNewCodes] using h
  | cons c rest ih =>
    intro acc h
    simp only [pushNewCodes]
    split
    · exact ih acc h
    · refine ih (acc ++ [c]) ?_
      refine List.nodup_append.mpr ⟨h, List.nodup_singleton c, ?_⟩
      intro a ha hb
      simp only [List.mem_singleton] at hb
      subst hb
      exact absurd ha (by assumption)

theorem pushNewCodes_eq_append_filter : ∀ (new acc : List Int), new.Nodup →
    pushNewCodes acc new = acc ++ new.filter (fun c => !decide (c ∈ acc)) := by
  intro new
  induction new with
  | nil => intro acc _; simp [pushNewCodes]
  | cons c rest ih =>
    intro acc h
    have hrest : rest.Nodup := (List.nodup_cons.mp h).2
    have hc : c ∉ rest := (List.nodup_cons.mp h).1
    simp only [pushNewCodes]
    by_cases hmem : c ∈ acc
    · rw [if_pos hmem, ih acc hrest]
      simp [List.filter_cons, hmem]
    · rw [if_neg hmem, ih (acc ++ [c]) hrest]
      have hfe : rest.filter (fun x => !decide (x ∈ acc ++ [c]))
          = rest.filter (fun x => !decide (x ∈ acc)) := by
        refine List.filter_congr ?_
        intro x hx
        have hxc : x ≠ c := fun e => hc (e ▸ hx)
        simp [List.mem_append, hxc]
      rw [hfe]
      simp [List.filter_cons, hmem]

theorem survivorCodes_ok_nodup {f : VCFilter} {old s : List Int}
    (h : old.Nodup) (hs : survivorCodes f old = .ok s) : s.Nodup := by
  cases f with
  | pattern p =>
    simp only [survivorCodes] at hs
    cases hs
    exact h.filter _
  | list l =>
    simp only [survivorCodes] at hs
    cases hs
    exact h.filter _
  | null =>
    simp only [survivorCodes] at hs
    split at hs
    · cases hs; exact List.nodup_nil
    · cases hs

theorem reconcile_ok_cases {ty : Option String} {f : VCFilter} {old new r : List Int}
    (h : reconcile ty f old new = .ok r) :
    (ty = some "all" ∧ r = new) ∨
    (ty ≠ some "all" ∧ ∃ s, survivorCodes f old = .ok s ∧ r = pushNewCodes s new) := by
  by_cases hty : ty = some "all"
  · refine Or.inl ⟨hty, ?_⟩
    simp only [reconcile, mergeTrackVersionCodes, hty, if_pos] at h
    exact (Except.ok.injEq _ _ ▸ h).symm
  · refine Or.inr ⟨hty, ?_⟩
    simp only [reconcile, mergeTrackVersionCodes, if_neg hty, List.head?] at h
    cases hs : survivorCodes f old with
    | error e => rw [hs] at h; simp [Except.map] at h
    | ok s =>
      rw [hs] at h
      simp only [Except.map] at h
      cases h
      exact ⟨s, rfl, rfl⟩

theorem foldl_vcStep_eq : ∀ (input : List String) (vs : List Int) (bad : List String),
    input.foldl vcStep (vs, bad) =
      (vs ++ (input.filter vcGood).filterMap (fun t => jsParseInt10 (jsTrim t)),
       bad ++ (input.filter (fun t => !vcGood t)).map jsTrim) := by
  intro input
  induction input with
  | nil => intro vs bad; simp
  | cons t rest ih =>
    intro vs bad
    rw [List.foldl_cons]
    cases hp : jsParseInt10 (jsTrim t) with
    | none =>
      have hg : vcGood t = false := by simp [vcGood, hp]
      have hstep : vcStep (vs, bad) t = (vs, bad ++ [jsTrim t]) := by
        simp [vcStep, hp]
      rw [hstep, ih]
      simp [List.filter_cons, hg, List.append_assoc]
    | some n =>
      by_cases hn : 0 < n
      · have hg : vcGood t = true := by simp [vcGood, hp, hn]
        have hstep : vcStep (vs, bad) t = (vs ++ [n], bad) := by
          simp [vcStep, hp, hn]
        rw [hstep, ih]
        simp [List.filter_cons, hg, hp, List.append_assoc]
      · have hg : vcGood t = false := by simp [vcGood, hp, hn]
        have hstep : vcStep (vs, bad) t = (vs, bad ++ [jsTrim t]) := by
          simp [vcStep, hp, hn]
        rw [hstep, ih]
        simp [List.filter_cons, hg, List.append_assoc]

/-! ## Claims -/

/-- Claim C1, counterexample: with filter type `'all'` the code returns
`apkVersionCodes` itself, so duplicated uploaded codes stay duplicated —
the merged list for new = `[4,4]` is `[4,4]`, which lists `4` twice. -/
theorem c1_counterexample :
    reconcile (some "all") VCFilter.null [1, 2, 3] [4, 4] = Except.ok [4, 4] ∧
      ¬ ([4, 4] : List Int).Nodup := ⟨rfl, by decide⟩

/-- Claim C1 (amended): whenever `oldVersionCodes` and `newVersionCodes`
each contain no duplicates, the merged version-code list returned by
`updateTrack`'s reconciliation contains no version code twice, for every
filter. -/
theorem c1_merged_nodup : ∀ (ty : Option String) (f : VCFilter) (old new r : List Int),
    old.Nodup → new.Nodup → reconcile ty f old new = .ok r → r.Nodup := by
  intro ty f old new r hold hnew h
  rcases reconcile_ok_cases h with ⟨_, rfl⟩ | ⟨_, s, hs, rfl⟩
  · exact hnew
  · exact nodup_pushNewCodes new s (survivorCodes_ok_nodup hold hs)

/-- Claim C1 witness: the amended statement at filter `list [2]`,
old `[1,2]`, new `[4]`. -/
theorem c1_witness : ([1, 4] : List Int).Nodup :=
  c1_merged_nodup (some "list") (VCFilter.list [2]) [1, 2] [4] [1, 4]
    (by decide) (by decide) rfl

/-- Claim C2: when the fetched track has no releases, reading
`res.releases[0].versionCodes` (GooglePlay.ts line 244) throws a
`TypeError` instead of treating the old list as empty, so with filter
`list [5]` and new codes `[1]` the merge fails rather than producing
`[1]`. -/
theorem c2_empty_releases_type_error :
    mergeTrackVersionCodes (some "list") (VCFilter.list [5]) (Except.ok ⟨[]⟩) [1]
      = Except.error MergeError.typeError := rfl

/-- Claim C3: for every filter type and filter value, every element of
the uploaded `apkVersionCodes` appears in the merged result whenever the
merge succeeds. -/
theorem c3_new_codes_in_result : ∀ (ty : Option String) (f : VCFilter) (old new r : List Int),
    reconcile ty f old new = .ok r → ∀ c ∈ new, c ∈ r := by
  intro ty f old new r h c hc
  rcases reconcile_ok_cases h with ⟨_, rfl⟩ | ⟨_, s, _, rfl⟩
  · exact hc
  · exact mem_pushNewCodes_right new s c hc

/-- Claim C3 witness: with filter `list [2]`, old `[1,2]`, new `[3]`,
the uploaded code `3` is in the result `[1,3]`. -/
theorem c3_witness : (3 : Int) ∈ ([1, 3] : List Int) :=
  c3_new_codes_in_result (some "list") (VCFilter.list [2]) [1, 2] [3] [1, 3]
    rfl 3 (by decide)

/-- Claim C4: in explicit-list mode a code in the exclusion list is
absent from the merged result unless it was also just uploaded, and an
old code not in the exclusion list survives. -/
theorem c4_list_filter_exclusion : ∀ (l old new r : List Int),
    reconcile (some "list") (VCFilter.list l) old new = .ok r →
    ∀ c : Int, (c ∈ l → c ∉ new → c ∉ r) ∧ (c ∈ old → c ∉ l → c ∈ r) := by
  intro l old new r h c
  rcases reconcile_ok_cases h with ⟨hty, _⟩ | ⟨_, s, hs, rfl⟩
  · exact absurd hty (by decide)
  · have hsurv : s = old.filter (fun x => !decide (x ∈ l)) := by
      simp only [survivorCodes] at hs
      cases hs
      rfl
    constructor
    · intro hcl hcnew hcr
      rcases mem_of_mem_pushNewCodes new s c hcr with hcs | hcn
      · rw [hsurv] at hcs
        simp only [List.mem_filter, Bool.not_eq_true', decide_eq_false_iff_not] at hcs
        exact hcs.2 hcl
      · exact hcnew hcn
    · intro hco hcl
      apply mem_pushNewCodes_left
      rw [hsurv]
      simp only [List.mem_filter, Bool.not_eq_true', decide_eq_false_iff_not]
      exact ⟨hco, hcl⟩

/-- Claim C4 witness: with exclusion list `[2]`, old `[1,2]`, new `[4]`
the excluded old code `2` is absent from the result `[1,4]` and the
non-excluded old code `1` is present. -/
theorem c4_witness : ((2 : Int) ∉ ([1, 4] : List Int)) ∧ ((1 : Int) ∈ ([1, 4] : List Int)) :=
  ⟨(c4_list_filter_exclusion [2] [1, 2] [4] [1, 4] rfl 2).1 (by decide) (by decide),
   (c4_list_filter_exclusion [2] [1, 2] [4] [1, 4] rfl 1).2 (by decide) (by decide)⟩

/-- Claim C5, counterexample: the decimal string `"12"` does not fully
match the pattern `1|2`, yet the code's regex `^1|2$` reads
`(^1)|(2$)`, whose first alternant matches the prefix `"1"`, so old
code `12` is excluded (the merged result is empty) instead of
surviving. -/
theorem c5_counterexample :
    rmatch (Regex.alt (.chr '1') (.chr '2')) (toString (12 : Int)).data = false ∧
    reconcile (some "expression")
        (VCFilter.pattern (Regex.alt (.chr '1') (.chr '2'))) [12] []
      = Except.ok [] ∧
    (12 : Int) ∉ ([] : List Int) := ⟨rfl, rfl, by decide⟩

/-- Claim C5 (amended): in pattern (`expression`) mode an old code is
excluded exactly when its decimal string matches the JavaScript regex
`'^' + pattern + '$'`, where a top-level alternation escapes the
anchors; for a pattern without top-level alternation this test is
exactly the anchored full match of the pattern, and in particular the
literal pattern `"123"` excludes old code `123` but keeps `1234`. -/
theorem c5_pattern_anchored :
    (∀ (p : Regex) (old new r : List Int),
        reconcile (some "expression") (VCFilter.pattern p) old new = .ok r →
        ∀ c : Int, c ∈ old →
          (jsAnchoredTest p (toString c) = true → c ∉ new → c ∉ r) ∧
          (jsAnchoredTest p (toString c) = false → c ∈ r)) ∧
    (∀ (p : Regex) (s : String), hasTopAlt p = false →
        jsAnchoredTest p s = rmatch p s.data) ∧
    reconcile (some "expression") (VCFilter.pattern (regexOfLiteral "123")) [123, 1234] []
      = Except.ok [1234] := by
  refine ⟨?_, ?_, rfl⟩
  · intro p old new r h c hco
    rcases reconcile_ok_cases h with ⟨hty, _⟩ | ⟨_, s, hs, rfl⟩
    · exact absurd hty (by decide)
    · have hsurv : s = old.filter (fun x => !jsAnchoredTest p (toString x)) := by
        simp only [survivorCodes] at hs
        cases hs
        rfl
      constructor
      · intro hmatch hcnew hcr
        rcases mem_of_mem_pushNewCodes new s c hcr with hcs | hcn
        · rw [hsurv] at hcs
          simp only [List.mem_filter, Bool.not_eq_true'] at hcs
          rw [hcs.2] at hmatch
          exact Bool.false_ne_true hmatch
        · exact hcnew hcn
      · intro hnomatch
        apply mem_pushNewCodes_left
        rw [hsurv]
        simp only [List.mem_filter, Bool.not_eq_true']
        exact ⟨hco, hnomatch⟩
  · intro p s hp
    cases p with
    | fail => rfl
    | eps => rfl
    | chr c => rfl
    | dot => rfl
    | seq a b => rfl
    | alt a b => exact absurd hp (by simp [hasTopAlt])
    | star a => rfl

/-- Claim C5 witness: from the general part at the alternation-free
pattern `"123"`, old `[123, 1234]`, new `[]`: the fully matching old
code `123` is absent from the result `[1234]`; and on such a pattern
the anchored test coincides with the full match. -/
theorem c5_witness :
    ((123 : Int) ∉ ([1234] : List Int)) ∧
    jsAnchoredTest (Regex.chr '7') "7" = rmatch (Regex.chr '7') "7".data :=
  ⟨(c5_pattern_anchored.1 (regexOfLiteral "123") [123, 1234] [] [1234]
      rfl 123 (by decide)).1 rfl (by decide),
   c5_pattern_anchored.2.1 (Regex.chr '7') "7" rfl⟩

/-- Claim C6, counterexample: the code deduplicates the uploaded codes
against the growing result, so with survivors `[1]` and uploads `[4,4]`
the result is `[1,4]`, not survivors followed by all uploads not among
the survivors (`[1,4,4]`). -/
theorem c6_counterexample :
    survivorCodes (VCFilter.list []) [1] = Except.ok [1] ∧
    reconcile (some "list") (VCFilter.list []) [1] [4, 4] = Except.ok [1, 4] ∧
    ([1, 4] : List Int) ≠ [1] ++ List.filter (fun c => !decide (c ∈ ([1] : List Int))) [4, 4] :=
  ⟨rfl, rfl, by decide⟩

/-- Claim C6 (amended): for every non-`'all'` filter, when the uploaded
codes contain no duplicates, the merged result is exactly the surviving
old codes in their original relative order followed by the uploaded
codes not already among the survivors, in upload order. -/
theorem c6_order :
    ∀ (ty : Option String) (f : VCFilter) (old new s : List Int),
      ty ≠ some "all" → new.Nodup → survivorCodes f old = .ok s →
      reconcile ty f old new = Except.ok (s ++ new.filter (fun c => !decide (c ∈ s))) := by
  intro ty f old new s hty hnew hs
  unfold reconcile mergeTrackVersionCodes
  rw [if_neg hty]
  show (survivorCodes f old).map (fun surv => pushNewCodes surv new) = _
  rw [hs]
  show Except.ok (pushNewCodes s new) = _
  rw [pushNewCodes_eq_append_filter new s hnew]

/-- Claim C6 witness: the amended statement at filter `list [2]`,
old `[1,2]`, new `[4]`, survivors `[1]`. -/
theorem c6_witness :
    reconcile (some "list") (VCFilter.list [2]) [1, 2] [4]
      = Except.ok ([1] ++ List.filter (fun c => !decide (c ∈ ([1] : List Int))) [4]) :=
  c6_order (some "list") (VCFilter.list [2]) [1, 2] [4] [1]
    (by decide) (by decide) rfl

/-- Claim C7: with filter type `'all'` the reconciliation returns
exactly the uploaded codes, for every filter value and every old
version-code list. -/
theorem c7_all_returns_new : ∀ (f : VCFilter) (old new : List Int),
    reconcile (some "all") f old new = Except.ok new := by
  intro f old new
  rfl

/-- Claim C9: with the filter-type input absent, the defaulted filter
type (modelled from the spec as `'all'`) makes the merge return exactly
the uploaded codes, whatever the track-fetch outcome would have been —
no old-track state is consulted. -/
theorem c9_default_filter_type_behaves_as_all :
    ∀ (f : VCFilter) (fetched : Except Unit Track) (new : List Int),
      mergeTrackVersionCodes (some (effectiveVersionCodeFilterType none)) f fetched new
        = Except.ok new := by
  intro f fetched new
  rfl

/-- Claim C10: with filter type `'all'` the merge succeeds with the
uploaded codes even when fetching the track would fail (the fetch is
never performed), and a `CannotDownloadTrack` error can only arise for
a filter type other than `'all'`. -/
theorem c10_all_never_fetches :
    (∀ (f : VCFilter) (new : List Int),
        mergeTrackVersionCodes (some "all") f (Except.error ()) new = Except.ok new) ∧
    (∀ (ty : Option String) (f : VCFilter) (fetched : Except Unit Track) (new : List Int),
        mergeTrackVersionCodes ty f fetched new = Except.error MergeError.cannotDownloadTrack →
        ty ≠ some "all") := by
  constructor
  · intro f new
    rfl
  · intro ty f fetched new h hty
    subst hty
    have hall : mergeTrackVersionCodes (some "all") f fetched new = Except.ok new := rfl
    rw [hall] at h
    exact Except.noConfusion h

/-- Claim C10 witness: a fetch failure under filter type `'list'` gives
the download error (so the type is not `'all'`), while under `'all'`
the same fetch failure is never observed. -/
theorem c10_witness :
    ((some "list" : Option String) ≠ some "all") ∧
    mergeTrackVersionCodes (some "all") VCFilter.null (Except.error ()) [7] = Except.ok [7] :=
  ⟨c10_all_never_fetches.2 (some "list") (VCFilter.list []) (Except.error ()) [9] rfl,
   c10_all_never_fetches.1 VCFilter.null [7]⟩

/-- Claim C8, counterexample: the token `"12.5"` is not an integer
value, yet the parser accepts it as `parseInt`'s integer prefix `12`
instead of failing. -/
theorem c8_counterexample :
    isPositiveIntegerToken "12.5" = false ∧
    getVersionCodeListInput ["12.5"] = Except.ok [12] := ⟨rfl, rfl⟩

/-- Claim C8 (amended): the explicit-list parser fails exactly when some
token's trimmed `parseInt` base-10 value is missing (`NaN`) or
non-positive; when every token passes that test it returns the list of
`parseInt` values (so a token with trailing garbage such as `"12.5"` is
accepted as its integer prefix). -/
theorem c8_parse_boundary : ∀ input : List String,
    ((∀ t ∈ input, vcGood t = true) →
        getVersionCodeListInput input
          = Except.ok (input.filterMap (fun t => jsParseInt10 (jsTrim t)))) ∧
    (∀ t ∈ input, vcGood t = false →
        ∃ e, getVersionCodeListInput input = Except.error e) := by
  intro input
  constructor
  · intro hall
    have h1 : input.filter (fun t => !vcGood t) = [] := by
      rw [List.filter_eq_nil_iff]
      intro a ha
      simp [hall a ha]
    have h2 : input.filter vcGood = input :=
      List.filter_eq_self.mpr (fun a ha => hall a ha)
    simp only [getVersionCodeListInput]
    rw [foldl_vcStep_eq input [] [], h1, h2]
    simp
  · intro t ht hbad
    have hmem : t ∈ input.filter (fun x => !vcGood x) := by
      simp only [List.mem_filter, Bool.not_eq_true', hbad]
      exact ⟨ht, trivial⟩
    simp only [getVersionCodeListInput]
    rw [foldl_vcStep_eq input [] []]
    cases hY : input.filter (fun x => !vcGood x) with
    | nil => rw [hY] at hmem; exact absurd hmem (List.not_mem_nil t)
    | cons a as =>
      exact ⟨[] ++ (a :: as).map jsTrim, by simp⟩

/-- Claim C8 witness: the amended statement at the valid input `["7"]`
(accepted as `[7]`) and the invalid input `["0"]` (rejected). -/
theorem c8_witness :
    getVersionCodeListInput ["7"]
      = Except.ok (["7"].filterMap (fun t => jsParseInt10 (jsTrim t))) ∧
    ∃ e, getVersionCodeListInput ["0"] = Except.error e :=
  ⟨(c8_parse_boundary ["7"]).1 (by decide),
   (c8_parse_boundary ["0"]).2 "0" (by decide) (by decide)⟩

end GPlay
